import Mathlib

/-!
Verification of the node-slack-logger core (src/lib/index.js, src/lib/formats.js,
src/lib/constants.js) against its natural-language specification.

The JavaScript source is shallowly embedded: JS runtime values that the logger
inspects are modelled by the inductive type `JSV`; the `in` operator and
property reads on plain object literals are modelled including the inherited
`Object.prototype` property names (their values are modelled opaquely as
`JSV.protoFn`); machine numbers are `Int` (the logger only handles small
integer ranks); functions supplied by the caller (`send`, custom formatters)
are modelled as Lean functions in `JSFn`, where a JS exception is an
`Except.error`.
-/

/-- A JavaScript value, restricted to the function-free fragment the logger's
data paths touch.  `protoFn name` stands for the value of an inherited
`Object.prototype` member reached through the prototype chain (modelled
opaquely: only its existence, `typeof` and truthiness matter here). -/
inductive JSV where
  | undefV : JSV
  | null : JSV
  | bool : Bool → JSV
  | num : Int → JSV
  | str : String → JSV
  | arr : List JSV → JSV
  | obj : List (String × JSV) → JSV
  | protoFn : String → JSV

/-- The `typeof` operator. -/
def jsTypeof : JSV → String
  | .undefV => "undefined"
  | .null => "object"
  | .bool _ => "boolean"
  | .num _ => "number"
  | .str _ => "string"
  | .arr _ => "object"
  | .obj _ => "object"
  | .protoFn _ => "function"

/-- JS truthiness. -/
def jsTruthy : JSV → Bool
  | .undefV => false
  | .null => false
  | .bool b => b
  | .num n => n != 0
  | .str s => s != ""
  | .arr _ => true
  | .obj _ => true
  | .protoFn _ => true

/-- Stringification as performed by template literals and property-key
coercion (`String(v)`).  Arrays and inherited functions are modelled
opaquely; neither reaches a claim-relevant path. -/
def jsDisplay : JSV → String
  | .undefV => "undefined"
  | .null => "null"
  | .bool b => if b then "true" else "false"
  | .num n => toString n
  | .str s => s
  | .arr _ => "[array]"
  | .obj _ => "[object Object]"
  | .protoFn n => "function " ++ n

/-- The property key a value is coerced to by `v in obj` and `obj[v]`. -/
def jsKeyOf (v : JSV) : String := jsDisplay v

/-- The own property names of `Object.prototype`, inherited by every plain
object literal, hence visible to the `in` operator and to property reads. -/
def objectProtoKeys : List String :=
  ["constructor", "hasOwnProperty", "isPrototypeOf", "propertyIsEnumerable",
   "toLocaleString", "toString", "valueOf", "__defineGetter__",
   "__defineSetter__", "__lookupGetter__", "__lookupSetter__", "__proto__"]

/-- The `in` operator on a plain object literal with own keys `own`:
true for an own key or an inherited `Object.prototype` key. -/
def jsInKeys (key : String) (own : List String) : Bool :=
  own.contains key || objectProtoKeys.contains key

/-- Property read `obj[key]` on a plain object literal with own properties
`fs`: the own value if present, else the inherited `Object.prototype`
member, else `undefined`. -/
def jsGet (fs : List (String × JSV)) (key : String) : JSV :=
  match fs.lookup key with
  | some v => v
  | none => if objectProtoKeys.contains key then .protoFn key else .undefV

/-- Property read `v[key]` on an arbitrary value.  Reads on primitives yield
`undefined`; the logger never reads properties of `null`/`undefined` on
validated paths, so those are also mapped to `undefined` here. -/
def jsIndex (v : JSV) (key : String) : JSV :=
  match v with
  | .obj fs => jsGet fs key
  | _ => .undefV

/-- JS `a || b`. -/
def jsOr (a b : JSV) : JSV := if jsTruthy a then a else b

/-- JS `ToNumber` restricted to the values that reach the logger's `<`
comparison (numbers, and the decimal strings `_getLevel` can return);
`none` stands for NaN. -/
def toNum : JSV → Option Int
  | .num n => some n
  | .str s => if s != "" && s.toList.all Char.isDigit then some (s.toNat!) else none
  | _ => none

/-- JS `a < b` on the values reaching the rank comparison: numeric comparison,
false when either side is NaN. -/
def jsLt (a b : JSV) : Bool :=
  match toNum a, toNum b with
  | some x, some y => decide (x < y)
  | _, _ => false

/-! ## Level and format tables (src/lib/constants.js, src/lib/formats.js) -/

/-- Own keys of `logLevels` (constants.js): name → rank. -/
def logLevelKeys : List String := ["DEBUG", "INFO", "WARNING", "ERROR", "CRITICAL"]

/-- Own keys of `logLevelNames` (constants.js): rank → name, keys are the
stringified ranks. -/
def logLevelNameKeys : List String := ["1", "2", "3", "4", "5"]

/-- The `logLevels` object, name → rank. -/
def logLevelsObj : List (String × JSV) :=
  [("DEBUG", .num 1), ("INFO", .num 2), ("WARNING", .num 3),
   ("ERROR", .num 4), ("CRITICAL", .num 5)]

/-- The `logLevelNames` object, stringified rank → name. -/
def logLevelNamesObj : List (String × JSV) :=
  [("1", .str "DEBUG"), ("2", .str "INFO"), ("3", .str "WARNING"),
   ("4", .str "ERROR"), ("5", .str "CRITICAL")]

/-- The `_defaultColors` object (constants.js), stringified rank → color. -/
def _defaultColorsObj : List (String × JSV) :=
  [("1", .str "#eee"), ("2", .str "#0f0"), ("3", .str "#ff0"),
   ("4", .str "#f00"), ("5", .str "#f00")]

/-- `level in logLevels`. -/
def inLogLevels (v : JSV) : Bool := jsInKeys (jsKeyOf v) logLevelKeys

/-- `level in logLevelNames`. -/
def inLogLevelNames (v : JSV) : Bool := jsInKeys (jsKeyOf v) logLevelNameKeys

/-- `_getLevel` (src/lib/index.js lines 49-57): returns the input unchanged
when it is a property key of `logLevelNames`, else the rank looked up in
`logLevels`, else throws `Unknown level`. -/
def _getLevel (level : JSV) : Except String JSV :=
  if inLogLevelNames level then Except.ok level
  else if inLogLevels level then Except.ok (jsGet logLevelsObj (jsKeyOf level))
  else Except.error ("Unknown level: " ++ jsDisplay level)

/-! ## Trail extraction (src/lib/index.js lines 73-94)

The frame pattern is the regex

  at(?:\s(\S*))?\s\(?([^\s)]+):(\d+):(\d+)\)?

It is hand-compiled below into a backtracking matcher over `List Char`,
preserving the regex's leftmost-match search, the greedy optional scope
group with fallback to the group-skipped alternative, the greedy optional
parentheses, and the greedy file atom `[^\s)]+` backtracking against its
`:(digits):(digits)` tail.  `\s` is modelled by `Char.isWhitespace`
(stack traces only contain spaces and newlines). -/

/-- Characters matched by the file atom `[^\s)]`. -/
def isFileC (c : Char) : Bool := !c.isWhitespace && c != ')'

/-- One parsed stack frame: the raw captured groups of the regex. -/
structure RawFrame where
  scope : Option (List Char)
  file : List Char
  line : List Char
  column : List Char

/-- Outcome of matching `([^\s)]+):(\d+):(\d+)\)?` at a position. -/
structure TailHit where
  file : List Char
  line : List Char
  column : List Char
  rest : List Char

/-- Try file length `k` against the maximal `[^\s)]` run `T`: the tail after
the file must be `:` digits `:` digits, with both digit groups taken
greedily (maximal munch, equivalent here since `:` is not a digit).
Returns the two digit groups and the number of characters consumed. -/
def splitOK (T : List Char) (k : Nat) : Option (List Char × List Char × Nat) :=
  match T.drop k with
  | ':' :: u =>
    let d1 := u.takeWhile Char.isDigit
    if d1.isEmpty then none
    else
      match u.drop d1.length with
      | ':' :: w =>
        let d2 := w.takeWhile Char.isDigit
        if d2.isEmpty then none
        else some (d1, d2, k + 1 + d1.length + 1 + d2.length)
      | _ => none
  | _ => none

/-- Greedy backtracking over the file length: try the longest file first
(`k` counts down), as the regex's greedy `[^\s)]+` does. -/
def findSplit (T : List Char) : Nat → Option (Nat × List Char × List Char × Nat)
  | 0 => none
  | k + 1 =>
    match splitOK T (k + 1) with
    | some (d1, d2, n) => some (k + 1, d1, d2, n)
    | none => findSplit T k

/-- The optional closing parenthesis `\)?`: consume it greedily if present. -/
def dropCloseParen : List Char → List Char
  | ')' :: r => r
  | r => r

/-- Match `([^\s)]+):(\d+):(\d+)\)?` at the head of `cs`. -/
def fileTail (cs : List Char) : Option TailHit :=
  let T := cs.takeWhile isFileC
  match findSplit T T.length with
  | none => none
  | some (k, d1, d2, n) => some ⟨T.take k, d1, d2, dropCloseParen (cs.drop n)⟩

/-- Match `\(?([^\s)]+):(\d+):(\d+)\)?`: the optional opening parenthesis is
greedy, but `(` also belongs to the file class, so on failure the matcher
retries without consuming it. -/
def parenFileTail (cs : List Char) : Option TailHit :=
  match cs with
  | '(' :: cs1 => (fileTail cs1).orElse (fun _ => fileTail cs)
  | _ => fileTail cs

/-- Match everything after the literal `at`: first the alternative with the
scope group `\s(\S*)\s`, then (on failure) the group-skipped alternative
`\s`.  Inside the group, `\S*` must take its maximal run: any shorter
prefix leaves a non-whitespace character where the following `\s` must
match. -/
def matchAfterAt (cs : List Char) : Option (RawFrame × List Char) :=
  match cs with
  | [] => none
  | c :: cs1 =>
    if c.isWhitespace then
      let scopeRun := cs1.takeWhile (fun d => !d.isWhitespace)
      let afterScope := cs1.drop scopeRun.length
      let branchA : Option (RawFrame × List Char) :=
        match afterScope with
        | c2 :: cs3 =>
          if c2.isWhitespace then
            (parenFileTail cs3).map (fun h => (⟨some scopeRun, h.file, h.line, h.column⟩, h.rest))
          else none
        | [] => none
      branchA.orElse (fun _ =>
        (parenFileTail cs1).map (fun h => (⟨none, h.file, h.line, h.column⟩, h.rest)))
    else none

/-- Match the whole frame regex at the head of `cs` (which must start with
the literal `at`). -/
def matchAt : List Char → Option (RawFrame × List Char)
  | 'a' :: 't' :: cs => matchAfterAt cs
  | _ => none

/-- Leftmost search, as `RegExp.exec` performs: try each start position in
order.  Returns the frame and the remainder after the match (the text from
`lastIndex` on, for the global-flag continuation). -/
def searchMatch : List Char → Option (RawFrame × List Char)
  | [] => none
  | c :: cs =>
    match matchAt (c :: cs) with
    | some r => some r
    | none => searchMatch cs

/-- The `excludeCurrentModule` loop: take successive matches (global regex)
and skip every frame whose file equals the module's own file name.  `fuel`
bounds the recursion; every match strictly shrinks the remaining text (it
consumes at least the literal `at`), so `cs.length + 1` fuel is always
enough — see `searchMatch_rest_lt`. -/
def skipAux (fname : List Char) : Nat → List Char → Option RawFrame
  | 0, _ => none
  | n + 1, cs =>
    match searchMatch cs with
    | none => none
    | some (f, rest) => if f.file = fname then skipAux fname n rest else some f

/-- The environment-supplied facilities the extractor uses: the module's own
file (`__filename`), the main module's directory (`require.main.path`) and
Node's `path.relative`. -/
structure SysEnv where
  filename : String
  mainPath : String
  pathRelative : String → String → String

/-- A log event trail. -/
structure Trail where
  scope : Option String := none
  file : Option String := none
  line : Option Nat := none
  column : Option Nat := none
deriving DecidableEq

/-- JS `parseInt(s, 10)` restricted to the strings the matcher produces
(digit groups): the value of the leading digit run, NaN (`none`) when
there is none. -/
def jsParseInt (l : List Char) : Option Nat :=
  let ds := l.takeWhile Char.isDigit
  if ds.isEmpty then none
  else some (ds.foldl (fun a c => a * 10 + (c.toNat - 48)) 0)

/-- Build the trail object from a matched frame, as index.js lines 87-92:
the file is relativized against the main module's directory. -/
def mkTrail (env : SysEnv) (f : RawFrame) : Trail :=
  { scope := f.scope.map (fun l => String.mk l)
    file := some (env.pathRelative env.mainPath (String.mk f.file))
    line := jsParseInt f.line
    column := jsParseInt f.column }

/-- `_getTrailFromErrorStack` (index.js lines 76-94): with
`excludeCurrentModule` the regex is global and frames from the module's
own file are skipped; otherwise the first match is taken unconditionally.
No match yields the empty trail. -/
def _getTrailFromErrorStack (env : SysEnv) (stack : String)
    (excludeCurrentModule : Bool) : Trail :=
  let cs := stack.toList
  if excludeCurrentModule then
    match skipAux env.filename.toList (cs.length + 1) cs with
    | none => {}
    | some f => mkTrail env f
  else
    match searchMatch cs with
    | none => {}
    | some (f, _) => mkTrail env f

/-! ## Event normalization (src/lib/index.js lines 97-123) -/

/-- A canonical log event (`LogEventValues`).  Fields that can be absent hold
the JS value as produced (`undefined` when absent). -/
structure LogEvent where
  appName : Option String
  level : JSV
  levelName : JSV
  color : JSV
  name : JSV
  message : JSV
  stack : JSV
  trail : Trail
  context : JSV

/-- A caller-supplied JS function as the logger uses one: applied to a log
event (formatters receive the event; the time in whole seconds is passed
explicitly since the default formatter reads the clock), a raised
exception being `Except.error`.  Values of this type also stand for the
`send` callback, which the core stores and hands the payload to but whose
behaviour it never observes. -/
def JSFn := Nat → LogEvent → Except String JSV

/-- `_getLogValues` (index.js lines 97-123).  `freshStack` is the text of
`Error().stack` captured at this point.  Note the exclude-self flag: the
string branch passes `true`, the object branch passes `Boolean(stack)` —
true exactly when an explicit stack is present. -/
def _getLogValues (env : SysEnv) (freshStack : String)
    (appName : Option String) (level : JSV) (colors : JSV)
    (errorOrMessageOrOptions : JSV) (context : JSV) : LogEvent :=
  let stringInput := jsTypeof errorOrMessageOrOptions == "string"
  let name := if stringInput then JSV.undefV else jsIndex errorOrMessageOrOptions "name"
  let message := if stringInput then errorOrMessageOrOptions
    else jsIndex errorOrMessageOrOptions "message"
  let stack := if stringInput then JSV.undefV else jsIndex errorOrMessageOrOptions "stack"
  let optionsContext := if stringInput then JSV.undefV
    else jsIndex errorOrMessageOrOptions "context"
  let trail :=
    if stringInput then _getTrailFromErrorStack env freshStack true
    else
      -- trail = _getTrailFromErrorStack(stack || Error().stack, Boolean(stack))
      _getTrailFromErrorStack env
        (if jsTruthy stack then jsDisplay stack else freshStack) (jsTruthy stack)
  { appName := appName
    level := level
    levelName := jsGet logLevelNamesObj (jsKeyOf level)
    color := jsOr (if jsTruthy colors then jsIndex colors (jsKeyOf level) else colors)
      (jsGet _defaultColorsObj (jsKeyOf level))
    name := name
    message := message
    stack := stack
    trail := trail
    context := jsOr (jsOr context optionsContext) (.obj []) }

/-! ## Formats (src/lib/formats.js) -/

/-- Display of an optional line/column number in a template literal:
`undefined` renders as the string shown for NaN-free values; a missing
parse (NaN) renders as `NaN`. -/
def numDisplay : Option Nat → String
  | some n => toString n
  | none => "NaN"

/-- True when `Object.keys(trail).length` is nonzero.  A parsed frame always
carries its `file` key, so emptiness of the produced trail is equivalent
to all fields being absent. -/
def trailNonEmpty (t : Trail) : Bool :=
  t.scope.isSome || t.file.isSome || t.line.isSome || t.column.isSome

/-- `_slackFormatter` (formats.js): the built-in SLACK renderer.  It builds
the ordered block list: header, body (`name: message` when `name` is
truthy), an optional preformatted stack block, and a trailing context
block holding the timestamp element, the trail element when the trail is
non-empty, and one element per context entry. -/
def _slackFormatter : JSFn := fun ts ev =>
  let headerBlock : JSV := .obj
    [("type", .str "header"),
     ("text", .obj [("type", .str "plain_text"),
       ("text", .str ("[" ++ jsDisplay ev.levelName ++ "] "
         ++ (match ev.appName with | some a => a | none => "undefined"))),
       ("emoji", .bool true)])]
  let bodyBlock : JSV := .obj
    [("type", .str "section"),
     ("text", .obj [("type", .str "mrkdwn"),
       ("text", if jsTruthy ev.name
         then .str (jsDisplay ev.name ++ ": " ++ jsDisplay ev.message)
         else ev.message)])]
  let stackBlocks : List JSV :=
    if jsTruthy ev.stack then
      [.obj [("type", .str "section"),
        ("text", .obj [("type", .str "mrkdwn"),
          ("text", .str ("```" ++ jsDisplay ev.stack ++ "```"))])]]
    else []
  let tsElement : JSV := .obj
    [("type", .str "mrkdwn"),
     ("text", .str ("<!date^" ++ toString ts
       ++ "^\x7bdate_num\x7d \x7btime_secs\x7d|2014-02-18 6:39:42 AM EST>"))]
  let trailElements : List JSV :=
    if trailNonEmpty ev.trail then
      [.obj [("type", .str "plain_text"),
        ("text", .str (":feelsobserve: "
          ++ (match ev.trail.file with | some f => f | none => "undefined")
          ++ (match ev.trail.scope with
              | some sc => if sc != "" then "/" ++ sc else ""
              | none => "")
          ++ " line " ++ numDisplay ev.trail.line ++ ":" ++ numDisplay ev.trail.column)),
        ("emoji", .bool true)]]
    else []
  let contextEntries : List (String × JSV) :=
    match ev.context with
    | .obj fs => fs
    | _ => []
  let contextElements : List JSV := contextEntries.map (fun kv =>
    .obj [("type", .str "plain_text"),
      ("text", .str (kv.1 ++ ": " ++ jsDisplay kv.2)),
      ("emoji", .bool true)])
  let contextBlock : JSV := .obj
    [("type", .str "context"),
     ("elements", .arr (tsElement :: trailElements ++ contextElements))]
  Except.ok (.obj
    [("attachments", .arr
      [.obj [("color", ev.color),
        ("blocks", .arr ([headerBlock, bodyBlock] ++ stackBlocks ++ [contextBlock]))]])])

/-- Own keys of `logFormats` (formats.js). -/
def logFormatKeys : List String := ["SLACK"]

/-- Own keys of `logFormatNames` (formats.js): the stringified format ids. -/
def logFormatNameKeys : List String := ["1"]

/-- A value occurring as a field of a configuration object: either a
function-free JS value or a caller-supplied function. -/
inductive FieldV where
  | js : JSV → FieldV
  | fn : JSFn → FieldV

/-- `typeof` on a configuration field value. -/
def fieldTypeof : FieldV → String
  | .js v => jsTypeof v
  | .fn _ => "function"

/-- The property key a configuration field value coerces to (a function
stringifies to its source text, which never collides with a table key). -/
def fieldKey : FieldV → String
  | .js v => jsKeyOf v
  | .fn _ => "function () \x7b [source text] \x7d"

/-- `format in logFormats`. -/
def inLogFormats (f : FieldV) : Bool := jsInKeys (fieldKey f) logFormatKeys

/-- `format in logFormatNames`. -/
def inLogFormatNames (f : FieldV) : Bool := jsInKeys (fieldKey f) logFormatNameKeys

/-- The value of an inherited `Object.prototype` method when it ends up
being called as a formatter; modelled opaquely (no claim depends on the
payload such a call produces). -/
def inheritedFn (name : String) : JSFn := fun _ _ =>
  Except.ok (.str ("[inherited " ++ name ++ "]"))

/-- `_getFormat` (index.js lines 60-71).  The first branch looks the key up
in `_defaultFormats`; its own key is `"1"` (the SLACK formatter) and the
branch is also reachable through inherited `Object.prototype` keys, whose
values are modelled by `inheritedFn`.  The second branch is reachable only
through the own key `"SLACK"` (inherited keys are caught by the first
branch), so it resolves to `_defaultFormats[logFormats.SLACK]`, the SLACK
formatter. -/
def _getFormat (format : FieldV) : Except String JSFn :=
  if inLogFormatNames format then
    Except.ok (if fieldKey format == "1" then _slackFormatter else inheritedFn (fieldKey format))
  else if inLogFormats format then
    Except.ok _slackFormatter
  else
    match format with
    | .fn g => Except.ok g
    | .js (.protoFn n) => Except.ok (inheritedFn n)
    | _ => Except.error "Invalid format function"

/-! ## Logger configuration (src/lib/index.js lines 125-166) -/

/-- The configuration a `Logger` stores: `_send`, `_format` (the resolved
render function), `_appName`, `_minLevel` (the `_getLevel` result) and
`_colors`.  A fresh instance has every field `undefined`. -/
structure LoggerState where
  send : Option JSFn := none
  format : Option JSFn := none
  appName : Option String := none
  minLevel : Option JSV := none
  colors : JSV := JSV.undefV

/-- The state of a `new Logger` before `setConfig` runs. -/
def initialLoggerState : LoggerState := {}

/-- A configuration object as the caller may build one; `none` is an absent
field.  An explicitly `undefined` field behaves identically (destructuring
defaults fire on `undefined`), which `readField` normalizes. -/
structure ConfigObj where
  send : Option FieldV := none
  format : Option FieldV := none
  appName : Option FieldV := none
  minLevel : Option FieldV := none
  colors : Option FieldV := none

/-- The value passed where a configuration is expected: either an arbitrary
JS value or a configuration object (carrying possible function fields). -/
inductive ConfigArg where
  | js : JSV → ConfigArg
  | cfg : ConfigObj → ConfigArg

/-- Normalize an explicit `undefined` field to an absent one. -/
def normF : Option FieldV → Option FieldV
  | some (.js .undefV) => none
  | o => o

/-- Read one field out of the configuration argument, as the destructuring
`({ field = default } = config)` sees it: absent (triggering the default)
when the field is missing or `undefined`; reads on non-object primitives
yield `undefined`. -/
def readField (c : ConfigArg) (sel : ConfigObj → Option FieldV) (key : String) :
    Option FieldV :=
  match c with
  | .cfg o => normF (sel o)
  | .js (.obj fs) => normF (some (.js (jsGet fs key)))
  | .js _ => none

/-- True for the arguments on which the destructuring itself throws. -/
def configNullish : ConfigArg → Bool
  | .js .undefV => true
  | .js .null => true
  | _ => false

/-- Extract a field value as a callable: exactly the values of
`typeof === "function"` (caller functions and inherited prototype
methods). -/
def asFn : FieldV → Option JSFn
  | .fn f => some f
  | .js (.protoFn n) => some (inheritedFn n)
  | _ => none

/-- `minLevel in logLevels` on a configuration field. -/
def inLogLevelsF (f : FieldV) : Bool := jsInKeys (fieldKey f) logLevelKeys

/-- `minLevel in logLevelNames` on a configuration field. -/
def inLogLevelNamesF (f : FieldV) : Bool := jsInKeys (fieldKey f) logLevelNameKeys

/-- `_getLevel` applied to a configuration field (a function input matches
neither table, so it throws). -/
def _getLevelF : FieldV → Except String JSV
  | .js v => _getLevel v
  | .fn _ => Except.error "Unknown level: [function]"

/-- `typeof appName === "string" && appName`. -/
def appNameOK : FieldV → Bool
  | .js (.str a) => a != ""
  | _ => false

/-- `["undefined", "object"].includes(typeof colors) && colors !== null`. -/
def colorsOK : FieldV → Bool
  | .js .undefV => true
  | .js (.obj _) => true
  | .js (.arr _) => true
  | _ => false

/-- The `InvalidConfig` message thrown by `setConfig` (index.js line 159). -/
def invalidConfigMsg : String :=
  "Invalid arguments. Required: send (function). Optional: format (string|number|function=1), level (string|number=3), appName (string=My App), colors (object)"

/-- The destructured `send` with its default: `send = this._send`. -/
def resolvedSend (s : LoggerState) (c : ConfigArg) : FieldV :=
  (readField c ConfigObj.send "send").getD
    (match s.send with | some f => .fn f | none => .js .undefV)

/-- The destructured `format` with its default:
`format = this._format || logFormats.SLACK`. -/
def resolvedFormat (s : LoggerState) (c : ConfigArg) : FieldV :=
  (readField c ConfigObj.format "format").getD
    (match s.format with | some f => .fn f | none => .js (.num 1))

/-- The destructured `appName` with its default:
`appName = this._appName || "My App"`. -/
def resolvedAppName (s : LoggerState) (c : ConfigArg) : FieldV :=
  (readField c ConfigObj.appName "appName").getD
    (.js (.str (match s.appName with
      | some a => if a != "" then a else "My App"
      | none => "My App")))

/-- The destructured `minLevel` with its default:
`minLevel = this._minLevel || logLevels.WARNING`. -/
def resolvedMinLevel (s : LoggerState) (c : ConfigArg) : FieldV :=
  (readField c ConfigObj.minLevel "minLevel").getD
    (.js (match s.minLevel with
      | some v => if jsTruthy v then v else .num 3
      | none => .num 3))

/-- The destructured `colors` with its default: `colors = this._colors`. -/
def resolvedColors (s : LoggerState) (c : ConfigArg) : FieldV :=
  (readField c ConfigObj.colors "colors").getD (.js s.colors)

/-- The non-`send` conjuncts of the `setConfig` assertion (index.js
lines 150-156). -/
def configChecks (format minLevel appName colors : FieldV) : Bool :=
  (fieldTypeof format == "function" || inLogFormats format || inLogFormatNames format)
  && (inLogLevelsF minLevel || inLogLevelNamesF minLevel)
  && appNameOK appName && colorsOK colors

/-- `Logger.setConfig` (index.js lines 134-166).  Fields absent from the
argument fall back to the stored values (with `format`/`appName`/`minLevel`
getting their built-in defaults when no stored value exists); the whole
assertion runs before any field of the state is replaced, and the
post-assertion resolutions (`_getFormat`, `_getLevel`) cannot throw for
values the assertion accepted, so a raised `InvalidConfig` leaves the
stored configuration untouched. -/
def setConfig (s : LoggerState) (config : ConfigArg) : Except String LoggerState :=
  if configNullish config then Except.error invalidConfigMsg
  else
    match asFn (resolvedSend s config) with
    | none => Except.error invalidConfigMsg
    | some sendFn =>
      if configChecks (resolvedFormat s config) (resolvedMinLevel s config)
          (resolvedAppName s config) (resolvedColors s config) then
        match _getFormat (resolvedFormat s config) with
        | .error e => Except.error e
        | .ok fmt =>
          match _getLevelF (resolvedMinLevel s config) with
          | .error e => Except.error e
          | .ok lvl =>
            match resolvedAppName s config, resolvedColors s config with
            | .js (.str a), .js cv =>
              Except.ok { send := some sendFn, format := some fmt,
                          appName := some a, minLevel := some lvl, colors := cv }
            | _, _ => Except.error invalidConfigMsg
      else Except.error invalidConfigMsg

/-! ## Logger.log and the leveled methods (src/lib/index.js lines 176-281) -/

/-- The `InvalidLogCall` message (index.js line 198). -/
def invalidLogCallMsg : String :=
  "Invalid arguments. Required: level (string|number), errorOrMessageOrOptions (Error|string|object). Optional: context (object)"

/-- The `InvalidFormatter` message (index.js line 220; the formatter's own
message is passed as a second `Error` argument, which does not reach the
message text). -/
def formatFailMsg : String := "Failed to format log event body:"

/-- The TypeError raised when an unconfigured `_send` is invoked. -/
def sendNotFunctionMsg : String := "TypeError: this._send is not a function"

/-- `["undefined", ...].includes(typeof v)`. -/
def typeofIn (v : JSV) (l : List String) : Bool := l.contains (jsTypeof v)

/-- `v === null`. -/
def isNullV : JSV → Bool
  | .null => true
  | _ => false

/-- The validation assertion of `Logger.log` (index.js lines 179-195). -/
def validLogCall (level eomo context : JSV) : Bool :=
  (inLogLevels level || inLogLevelNames level)
  && jsTruthy eomo
  && (jsTypeof eomo == "string"
    || (jsTypeof eomo == "object"
      && jsTypeof (jsIndex eomo "message") == "string"
      && jsTruthy (jsIndex eomo "message")
      && typeofIn (jsIndex eomo "name") ["undefined", "string"]
      && typeofIn (jsIndex eomo "stack") ["undefined", "string"]
      && typeofIn (jsIndex eomo "context") ["undefined", "object"]
      && !isNullV (jsIndex eomo "context")))
  && typeofIn context ["undefined", "object"]
  && !isNullV context

/-- What a `log` call does when it returns successfully: either the
level-filtering no-op, or the invocation of `send` with the rendered
payload (whose asynchronous outcome belongs to the external `send`). -/
inductive LogOutcome where
  | filtered : LogOutcome
  | sent : JSV → LogOutcome

/-- `Logger.log` (index.js lines 176-225): validate, resolve the rank,
short-circuit below `_minLevel`, normalize into a log event, render it
through `_format` (a raised formatter becomes the `InvalidFormatter`
error), then hand the body to `_send`. -/
def Logger.log (env : SysEnv) (freshStack : String) (ts : Nat) (s : LoggerState)
    (level eomo context : JSV) : Except String LogOutcome :=
  if validLogCall level eomo context then
    match _getLevel level with
    | .error e => Except.error e
    | .ok safeLevel =>
      if jsLt safeLevel (s.minLevel.getD .undefV) then Except.ok .filtered
      else
        let logValues := _getLogValues env freshStack s.appName safeLevel s.colors eomo context
        match s.format with
        | none => Except.error formatFailMsg
        | some f =>
          match f ts logValues with
          | .error _ => Except.error formatFailMsg
          | .ok body =>
            match s.send with
            | none => Except.error sendNotFunctionMsg
            | some _ => Except.ok (.sent body)
  else Except.error invalidLogCallMsg

/-- `Logger.debug`: `log(logLevels.DEBUG, ...)`. -/
def Logger.debug (env : SysEnv) (freshStack : String) (ts : Nat) (s : LoggerState)
    (eomo context : JSV) : Except String LogOutcome :=
  Logger.log env freshStack ts s (.num 1) eomo context

/-- `Logger.info`: `log(logLevels.INFO, ...)`. -/
def Logger.info (env : SysEnv) (freshStack : String) (ts : Nat) (s : LoggerState)
    (eomo context : JSV) : Except String LogOutcome :=
  Logger.log env freshStack ts s (.num 2) eomo context

/-- `Logger.warning`: `log(logLevels.WARNING, ...)`. -/
def Logger.warning (env : SysEnv) (freshStack : String) (ts : Nat) (s : LoggerState)
    (eomo context : JSV) : Except String LogOutcome :=
  Logger.log env freshStack ts s (.num 3) eomo context

/-- `Logger.error`: `log(logLevels.ERROR, ...)`. -/
def Logger.error (env : SysEnv) (freshStack : String) (ts : Nat) (s : LoggerState)
    (eomo context : JSV) : Except String LogOutcome :=
  Logger.log env freshStack ts s (.num 4) eomo context

/-- `Logger.critical`: `log(logLevels.CRITICAL, ...)`. -/
def Logger.critical (env : SysEnv) (freshStack : String) (ts : Nat) (s : LoggerState)
    (eomo context : JSV) : Except String LogOutcome :=
  Logger.log env freshStack ts s (.num 5) eomo context

/-! ## Logger registry (src/lib/index.js lines 284-316) -/

/-- A registry key: property keys of the `_loggers` object literal are
strings (numeric ids are coerced), plus the `Symbol.for("default")`
identity, which no string key can collide with. -/
inductive RKey where
  | dflt : RKey
  | str : String → RKey
deriving DecidableEq

/-- The `_loggers` mapping: own properties of the registry object. -/
def Registry := List (RKey × LoggerState)

/-- Own-property lookup in the registry. -/
def lookupReg : Registry → RKey → Option LoggerState
  | [], _ => none
  | (k, L) :: r, k0 => if k = k0 then some L else lookupReg r k0

/-- Own-property write `_loggers[id] = L`. -/
def setReg : Registry → RKey → LoggerState → Registry
  | [], k0, L0 => [(k0, L0)]
  | (k, L) :: r, k0, L0 => if k = k0 then (k0, L0) :: r else (k, L) :: setReg r k0 L0

/-- `typeof idOrConfig`. -/
def argTypeof : ConfigArg → String
  | .js v => jsTypeof v
  | .cfg _ => "object"

/-- Truthiness of `loggerConfig`. -/
def argTruthy : ConfigArg → Bool
  | .js v => jsTruthy v
  | .cfg _ => true

/-- What `getLogger` hands back: a logger, or — for a never-written key that
is an inherited `Object.prototype` property name — the inherited member
itself, which is not a logger. -/
inductive GLResult where
  | lg : LoggerState → GLResult
  | inherited : String → GLResult

/-- True when the key hits the registry through the prototype chain only. -/
def protoRKey : RKey → Bool
  | .dflt => false
  | .str s => objectProtoKeys.contains s

/-- The `NotConfigured` message (index.js lines 309-312). -/
def notConfiguredMsg : RKey → String
  | .dflt => "The default logger does not yet exist, please supply config."
  | .str s => "Logger id " ++ s ++ " does not yet exist, please supply config."

/-- The TypeError raised when `setConfig` is invoked on an inherited
non-logger registry member. -/
def setConfigNotFunctionMsg : String :=
  "TypeError: _loggers[id].setConfig is not a function"

/-- The registry key `getLogger` resolves its first argument to: string and
number arguments name a string property key (numbers coerce to their
decimal form at the property accesses), everything else names the default
symbol. -/
def glKey : ConfigArg → RKey
  | .js (.str s) => .str s
  | .js (.num n) => .str (toString n)
  | _ => .dflt

/-- `getLogger` (index.js lines 295-316).  String/number arguments select a
key, anything else selects the default-symbol key; an object first
argument is the configuration.  `id in _loggers` is true for own keys
and for inherited `Object.prototype` keys; only own keys ever hold
loggers. -/
def getLogger (regs : Registry) (idOrConfig config : ConfigArg) :
    Except String (GLResult × Registry) :=
  let id : RKey := glKey idOrConfig
  let loggerConfig : ConfigArg := if argTypeof idOrConfig == "object" then idOrConfig else config
  match lookupReg regs id with
  | some L =>
    if argTruthy loggerConfig then
      match setConfig L loggerConfig with
      | .error e => Except.error e
      | .ok L2 => Except.ok (.lg L2, setReg regs id L2)
    else Except.ok (.lg L, regs)
  | none =>
    if protoRKey id then
      if argTruthy loggerConfig then Except.error setConfigNotFunctionMsg
      else
        match id with
        | .str s => Except.ok (.inherited s, regs)
        | .dflt => Except.ok (.inherited "", regs)
    else if argTruthy loggerConfig then
      match setConfig initialLoggerState loggerConfig with
      | .error e => Except.error e
      | .ok L => Except.ok (.lg L, setReg regs id L)
    else Except.error (notConfiguredMsg id)

/-! ## Frame invariants and termination of the extractor -/

def AllDigits (l : List Char) : Prop := ∀ c ∈ l, c.isDigit = true

def GoodFrame (f : RawFrame) : Prop :=
  f.line ≠ [] ∧ AllDigits f.line ∧ f.column ≠ [] ∧ AllDigits f.column

theorem takeWhile_allDigits (l : List Char) : AllDigits (l.takeWhile Char.isDigit) :=
  fun _ hc => List.mem_takeWhile_imp hc

theorem splitOK_good {T : List Char} {k : Nat} {d1 d2 : List Char} {n : Nat}
    (h : splitOK T k = some (d1, d2, n)) :
    d1 ≠ [] ∧ AllDigits d1 ∧ d2 ≠ [] ∧ AllDigits d2 := by
  simp only [splitOK] at h
  split at h
  · split at h
    · exact absurd h (by simp)
    · split at h
      · split at h
        · exact absurd h (by simp)
        · simp only [Option.some.injEq, Prod.mk.injEq] at h
          obtain ⟨h1, h2, -⟩ := h
          subst h1; subst h2
          refine ⟨?_, takeWhile_allDigits _, ?_, takeWhile_allDigits _⟩ <;>
            simp_all [List.isEmpty_iff]
      · exact absurd h (by simp)
  · exact absurd h (by simp)

theorem findSplit_good {T : List Char} {k : Nat} {j : Nat} {d1 d2 : List Char} {n : Nat}
    (h : findSplit T k = some (j, d1, d2, n)) :
    d1 ≠ [] ∧ AllDigits d1 ∧ d2 ≠ [] ∧ AllDigits d2 := by
  induction k with
  | zero => exact absurd h (by simp [findSplit])
  | succ k ih =>
    rw [findSplit] at h
    split at h
    · rename_i heq
      simp only [Option.some.injEq, Prod.mk.injEq] at h
      obtain ⟨-, h1, h2, -⟩ := h
      subst h1; subst h2
      exact splitOK_good heq
    · exact ih h

def GoodHit (h : TailHit) : Prop :=
  h.line ≠ [] ∧ AllDigits h.line ∧ h.column ≠ [] ∧ AllDigits h.column

theorem fileTail_good {cs : List Char} {h : TailHit} (hh : fileTail cs = some h) :
    GoodHit h := by
  simp only [fileTail] at hh
  split at hh
  · exact absurd hh (by simp)
  · rename_i heq
    simp only [Option.some.injEq] at hh
    subst hh
    exact findSplit_good heq

theorem parenFileTail_good {cs : List Char} {h : TailHit} (hh : parenFileTail cs = some h) :
    GoodHit h := by
  unfold parenFileTail at hh
  split at hh
  next cs1 =>
    cases h1 : fileTail cs1 with
    | some t => rw [h1] at hh; simp [Option.orElse] at hh; subst hh; exact fileTail_good h1
    | none =>
      rw [h1] at hh; simp [Option.orElse] at hh
      exact fileTail_good hh
  next =>
    exact fileTail_good hh

theorem parenMap_good {cs : List Char} {sc : Option (List Char)} {f : RawFrame}
    {rest : List Char}
    (h : ((parenFileTail cs).map
      (fun t => ((⟨sc, t.file, t.line, t.column⟩ : RawFrame), t.rest))) = some (f, rest)) :
    GoodFrame f := by
  cases h1 : parenFileTail cs with
  | none => rw [h1] at h; simp at h
  | some t =>
    rw [h1] at h
    simp only [Option.map_some', Option.some.injEq, Prod.mk.injEq] at h
    obtain ⟨h2, -⟩ := h
    subst h2
    exact parenFileTail_good h1

theorem matchAfterAt_good {cs : List Char} {f : RawFrame} {rest : List Char}
    (h : matchAfterAt cs = some (f, rest)) : GoodFrame f := by
  match cs with
  | [] => simp [matchAfterAt] at h
  | c :: cs1 =>
    simp only [matchAfterAt] at h
    split at h
    · cases hA : cs1.drop (cs1.takeWhile (fun d => !d.isWhitespace)).length with
      | nil =>
        rw [hA] at h
        simp only [Option.orElse] at h
        exact parenMap_good h
      | cons c2 cs3 =>
        rw [hA] at h
        dsimp only at h
        by_cases hw2 : c2.isWhitespace
        · rw [if_pos hw2] at h
          cases h1 : parenFileTail cs3 with
          | none =>
            rw [h1] at h
            simp only [Option.map_none', Option.orElse] at h
            exact parenMap_good h
          | some t =>
            rw [h1] at h
            simp only [Option.map_some', Option.orElse, Option.some.injEq,
              Prod.mk.injEq] at h
            obtain ⟨h2, -⟩ := h
            subst h2
            exact parenFileTail_good h1
        · rw [if_neg hw2] at h
          simp only [Option.orElse] at h
          exact parenMap_good h
    · simp at h

theorem matchAt_good {cs : List Char} {f : RawFrame} {rest : List Char}
    (h : matchAt cs = some (f, rest)) : GoodFrame f := by
  unfold matchAt at h
  split at h
  · exact matchAfterAt_good h
  · simp at h

theorem searchMatch_good {cs : List Char} {f : RawFrame} {rest : List Char}
    (h : searchMatch cs = some (f, rest)) : GoodFrame f := by
  induction cs with
  | nil => simp [searchMatch] at h
  | cons c cs ih =>
    rw [searchMatch] at h
    split at h
    · rename_i r heq
      injection h with h'
      subst h'
      exact matchAt_good heq
    · exact ih h

theorem skipAux_good {fname : List Char} {fuel : Nat} {cs : List Char} {f : RawFrame}
    (h : skipAux fname fuel cs = some f) : GoodFrame f := by
  induction fuel generalizing cs with
  | zero => simp [skipAux] at h
  | succ n ih =>
    rw [skipAux] at h
    split at h
    · exact absurd h (by simp)
    · rename_i f0 rest0 heq
      split at h
      · exact ih h
      · injection h with h'
        exact h' ▸ searchMatch_good heq

theorem dropCloseParen_le (l : List Char) : (dropCloseParen l).length ≤ l.length := by
  unfold dropCloseParen
  split
  · exact Nat.le_succ _
  · exact Nat.le_refl _

theorem fileTail_rest_le {cs : List Char} {h : TailHit} (hh : fileTail cs = some h) :
    h.rest.length ≤ cs.length := by
  simp only [fileTail] at hh
  split at hh
  · exact absurd hh (by simp)
  · simp only [Option.some.injEq] at hh
    subst hh
    exact le_trans (dropCloseParen_le _) (by simp)

theorem parenFileTail_rest_le {cs : List Char} {h : TailHit}
    (hh : parenFileTail cs = some h) : h.rest.length ≤ cs.length := by
  unfold parenFileTail at hh
  split at hh
  next cs1 =>
    cases h1 : fileTail cs1 with
    | some t =>
      rw [h1] at hh; simp [Option.orElse] at hh; subst hh
      exact le_trans (fileTail_rest_le h1) (by simp [Nat.le_succ])
    | none =>
      rw [h1] at hh; simp [Option.orElse] at hh
      exact fileTail_rest_le hh
  next => exact fileTail_rest_le hh

theorem parenMap_rest_le {cs : List Char} {sc : Option (List Char)} {f : RawFrame}
    {rest : List Char}
    (h : ((parenFileTail cs).map
      (fun t => ((⟨sc, t.file, t.line, t.column⟩ : RawFrame), t.rest))) = some (f, rest)) :
    rest.length ≤ cs.length := by
  cases h1 : parenFileTail cs with
  | none => rw [h1] at h; simp at h
  | some t =>
    rw [h1] at h
    simp only [Option.map_some', Option.some.injEq, Prod.mk.injEq] at h
    obtain ⟨-, h2⟩ := h
    subst h2
    exact parenFileTail_rest_le h1

theorem matchAfterAt_rest_le {cs : List Char} {f : RawFrame} {rest : List Char}
    (h : matchAfterAt cs = some (f, rest)) : rest.length ≤ cs.length := by
  match cs with
  | [] => simp [matchAfterAt] at h
  | c :: cs1 =>
    simp only [matchAfterAt] at h
    split at h
    · cases hA : cs1.drop (cs1.takeWhile (fun d => !d.isWhitespace)).length with
      | nil =>
        rw [hA] at h
        simp only [Option.orElse] at h
        exact le_trans (parenMap_rest_le h) (by simp [Nat.le_succ])
      | cons c2 cs3 =>
        have hlen : cs3.length + 1 ≤ cs1.length := by
          have := congrArg List.length hA
          simp [List.length_drop] at this
          omega
        rw [hA] at h
        dsimp only at h
        by_cases hw2 : c2.isWhitespace
        · rw [if_pos hw2] at h
          cases h1 : parenFileTail cs3 with
          | none =>
            rw [h1] at h
            simp only [Option.map_none', Option.orElse] at h
            exact le_trans (parenMap_rest_le h) (by simp [Nat.le_succ])
          | some t =>
            rw [h1] at h
            simp only [Option.map_some', Option.orElse, Option.some.injEq,
              Prod.mk.injEq] at h
            obtain ⟨-, h2⟩ := h
            subst h2
            have := parenFileTail_rest_le h1
            simp [List.length_cons]
            omega
        · rw [if_neg hw2] at h
          simp only [Option.orElse] at h
          exact le_trans (parenMap_rest_le h) (by simp [Nat.le_succ])
    · simp at h

theorem matchAt_rest_lt {cs : List Char} {f : RawFrame} {rest : List Char}
    (h : matchAt cs = some (f, rest)) : rest.length < cs.length := by
  unfold matchAt at h
  split at h
  next cs2 =>
    have := matchAfterAt_rest_le h
    simp [List.length_cons]
    omega
  next => simp at h

/-- Every successful frame match strictly shrinks the remaining text (the
literal `at` is consumed), so the `excludeCurrentModule` loop terminates
and `cs.length + 1` fuel in `skipAux` is never exhausted. -/
theorem searchMatch_rest_lt {cs : List Char} {f : RawFrame} {rest : List Char}
    (h : searchMatch cs = some (f, rest)) : rest.length < cs.length := by
  induction cs with
  | nil => simp [searchMatch] at h
  | cons c cs ih =>
    rw [searchMatch] at h
    split at h
    · rename_i r heq
      injection h with h'
      subst h'
      exact matchAt_rest_lt heq
    · exact lt_trans (ih h) (by simp)

theorem jsParseInt_isSome {l : List Char} (h1 : l ≠ []) (h2 : AllDigits l) :
    (jsParseInt l).isSome = true := by
  unfold jsParseInt
  rw [List.takeWhile_eq_self_iff.mpr h2]
  simp [List.isEmpty_iff, h1]

/-- C7: for every stack-trace text and every value of the exclude-self flag,
the trail extractor (a total function in this embedding, so it never
raises) returns either the empty trail or a trail whose `file`, `line`
and `column` are all present together (`scope` being optionally present):
any matched frame carries non-empty digit groups for line and column, so
`parseInt` succeeds and all three fields are populated at once. -/
theorem c7_trail_extractor_shape (env : SysEnv) (stack : String) (excl : Bool) :
    _getTrailFromErrorStack env stack excl = ({} : Trail)
    ∨ ((_getTrailFromErrorStack env stack excl).file.isSome = true
       ∧ (_getTrailFromErrorStack env stack excl).line.isSome = true
       ∧ (_getTrailFromErrorStack env stack excl).column.isSome = true) := by
  unfold _getTrailFromErrorStack
  cases excl with
  | false =>
    cases h : searchMatch stack.data with
    | none => left; simp [h]
    | some r =>
      obtain ⟨f, rest⟩ := r
      have hg := searchMatch_good h
      right
      refine ⟨?_, ?_, ?_⟩ <;>
        simp [h, mkTrail, jsParseInt_isSome hg.1 hg.2.1,
          jsParseInt_isSome hg.2.2.1 hg.2.2.2]
  | true =>
    cases h : skipAux env.filename.data (stack.length + 1) stack.data with
    | none => left; simp [h]
    | some f =>
      have hg := skipAux_good h
      right
      refine ⟨?_, ?_, ?_⟩ <;>
        simp [h, mkTrail, jsParseInt_isSome hg.1 hg.2.1,
          jsParseInt_isSome hg.2.2.1 hg.2.2.2]

/-! ## Concrete demonstration environment -/

/-- A concrete environment: the logger module's own `__filename`, the main
module directory, and path relativization modelled as the identity on the
file (the relativization rule is an external capability; only which frame
is chosen matters for the claims evaluated here). -/
def demoEnv : SysEnv :=
  { filename := "/app/node_modules/logger/lib/index.js"
    mainPath := "/app"
    pathRelative := fun _ f => f }

/-- The text of `Error().stack` as captured inside `_getLogValues`: the first
two frames belong to the logger module itself, the third is the genuine
call site. -/
def demoFreshStack : String :=
  "Error\n    at _getLogValues (/app/node_modules/logger/lib/index.js:97:15)\n    at Logger.log (/app/node_modules/logger/lib/index.js:207:23)\n    at caller (/app/server.js:10:5)"

/-- An explicit stack as a caller would pass one, whose first frame happens
to lie in the logger module's own file. -/
def demoExplicitStack : String :=
  "Error: boom\n    at wrapper (/app/node_modules/logger/lib/index.js:10:1)\n    at site (/app/app.js:3:7)"

set_option maxRecDepth 10000 in
/-- C1 (code bug): the exclude-self flag is wired backwards.  For the object
input `{ message: "m" }` with no explicit stack, `_getLogValues` parses the
freshly captured stack with `Boolean(stack) = false`, so the resulting
trail points at the logger module's own frame (first conjunct) — while the
self-excluding extraction the claim prescribes would attribute the call to
the genuine caller frame (second conjunct).  Symmetrically, for an object
carrying an explicit `stack`, the flag is `true`: a leading frame lying in
the module's own file is skipped (third conjunct), while the
non-excluding extraction the claim prescribes would keep it (fourth
conjunct).  Only the plain-string branch behaves as the claim states
(fifth conjunct). -/
theorem c1_exclude_self_flag_backwards :
    (_getLogValues demoEnv demoFreshStack (some "My App") (.num 3) .undefV
        (.obj [("message", .str "m")]) .undefV).trail
      = { scope := some "_getLogValues",
          file := some "/app/node_modules/logger/lib/index.js",
          line := some 97, column := some 15 }
    ∧ _getTrailFromErrorStack demoEnv demoFreshStack true
      = { scope := some "caller", file := some "/app/server.js",
          line := some 10, column := some 5 }
    ∧ (_getLogValues demoEnv demoFreshStack (some "My App") (.num 3) .undefV
        (.obj [("message", .str "m"), ("stack", .str demoExplicitStack)]) .undefV).trail
      = { scope := some "site", file := some "/app/app.js",
          line := some 3, column := some 7 }
    ∧ _getTrailFromErrorStack demoEnv demoExplicitStack false
      = { scope := some "wrapper",
          file := some "/app/node_modules/logger/lib/index.js",
          line := some 10, column := some 1 }
    ∧ (_getLogValues demoEnv demoFreshStack (some "My App") (.num 3) .undefV
        (.str "m") .undefV).trail
      = { scope := some "caller", file := some "/app/server.js",
          line := some 10, column := some 5 } :=
  ⟨rfl, rfl, rfl, rfl, rfl⟩

def demoSend : JSFn := fun _ _ => Except.ok (.str "sent")

def demoState : LoggerState :=
  { send := some demoSend, format := some _slackFormatter,
    appName := some "My App", minLevel := some (.num 3), colors := .undefV }

/-- C2: for every valid log call whose resolved rank is numerically strictly
below the logger's configured minimum level, `log` returns successfully
with the filtering no-op — the formatter and the `send` callback are not
invoked (the result is `filtered` for every stored formatter and send,
including ones that would raise).  In particular `debug` and `info` on a
logger with `minLevel = WARNING` (rank 3) always filter. -/
theorem c2_min_level_filters :
    (∀ (env : SysEnv) (freshStack : String) (ts : Nat) (s : LoggerState)
        (level eomo context lv mv : JSV) (r m : Int),
      validLogCall level eomo context = true →
      _getLevel level = Except.ok lv →
      toNum lv = some r →
      s.minLevel = some mv →
      toNum mv = some m →
      r < m →
      Logger.log env freshStack ts s level eomo context = Except.ok .filtered)
    ∧ (∀ (env : SysEnv) (freshStack : String) (ts : Nat) (s : LoggerState)
        (eomo context : JSV),
      s.minLevel = some (.num 3) →
      validLogCall (.num 1) eomo context = true →
      Logger.debug env freshStack ts s eomo context = Except.ok .filtered)
    ∧ (∀ (env : SysEnv) (freshStack : String) (ts : Nat) (s : LoggerState)
        (eomo context : JSV),
      s.minLevel = some (.num 3) →
      validLogCall (.num 2) eomo context = true →
      Logger.info env freshStack ts s eomo context = Except.ok .filtered) := by
  have main : ∀ (env : SysEnv) (freshStack : String) (ts : Nat) (s : LoggerState)
      (level eomo context lv mv : JSV) (r m : Int),
      validLogCall level eomo context = true →
      _getLevel level = Except.ok lv →
      toNum lv = some r →
      s.minLevel = some mv →
      toNum mv = some m →
      r < m →
      Logger.log env freshStack ts s level eomo context = Except.ok .filtered := by
    intro env fs ts s level eomo context lv mv r m hvalid hget hr hmin hm hlt
    simp only [Logger.log, hvalid, if_true, hget, hmin, Option.getD_some]
    have hj : jsLt lv mv = true := by
      simp [jsLt, hr, hm, hlt]
    simp [hj]
  refine ⟨main, ?_, ?_⟩
  · intro env fs ts s eomo context hmin hvalid
    exact main env fs ts s (.num 1) eomo context (.num 1) (.num 3) 1 3 hvalid rfl rfl
      hmin rfl (by norm_num)
  · intro env fs ts s eomo context hmin hvalid
    exact main env fs ts s (.num 2) eomo context (.num 2) (.num 3) 2 3 hvalid rfl rfl
      hmin rfl (by norm_num)

/-- Witness for C2: a concrete `debug`/`info` call on a WARNING-level logger
filters. -/
theorem c2_witness :
    validLogCall (.num 1) (.str "m") .undefV = true
    ∧ Logger.debug demoEnv demoFreshStack 0 demoState (.str "m") .undefV
      = Except.ok .filtered
    ∧ Logger.info demoEnv demoFreshStack 0 demoState (.str "m") .undefV
      = Except.ok .filtered :=
  ⟨rfl,
   c2_min_level_filters.2.1 demoEnv demoFreshStack 0 demoState (.str "m") .undefV rfl rfl,
   c2_min_level_filters.2.2 demoEnv demoFreshStack 0 demoState (.str "m") .undefV rfl rfl⟩

def ctxProbe : JSFn := fun _ ev => Except.ok ev.context

def demoCtxProbeState : LoggerState :=
  { send := some demoSend, format := some ctxProbe,
    appName := some "My App", minLevel := some (.num 3), colors := .undefV }

/-- C3: the built log event's `context` equals the explicit `context`
argument when one is given (conjunct 1), else the input object's
`context` property when present (conjunct 2), else the empty mapping
(conjuncts 3 and 4); and the spec's instance
`log(level, \x7b message: "m", context: \x7b a: 1 \x7d \x7d, \x7b a: 2 \x7d)`
produces the event context `\x7b a: 2 \x7d`, observed through a formatter
that returns the event's context (conjunct 5). -/
theorem c3_context_precedence :
    (∀ (env : SysEnv) (freshStack : String) (appName : Option String)
        (level colors eomo : JSV) (cfs : List (String × JSV)),
      (_getLogValues env freshStack appName level colors eomo (.obj cfs)).context
        = .obj cfs)
    ∧ (∀ (env : SysEnv) (freshStack : String) (appName : Option String)
        (level colors : JSV) (fs ccfs : List (String × JSV)),
      jsGet fs "context" = .obj ccfs →
      (_getLogValues env freshStack appName level colors (.obj fs) .undefV).context
        = .obj ccfs)
    ∧ (∀ (env : SysEnv) (freshStack : String) (appName : Option String)
        (level colors : JSV) (fs : List (String × JSV)),
      jsGet fs "context" = .undefV →
      (_getLogValues env freshStack appName level colors (.obj fs) .undefV).context
        = .obj [])
    ∧ (∀ (env : SysEnv) (freshStack : String) (appName : Option String)
        (level colors : JSV) (m : String),
      (_getLogValues env freshStack appName level colors (.str m) .undefV).context
        = .obj [])
    ∧ (∀ (env : SysEnv) (freshStack : String) (ts : Nat),
      Logger.log env freshStack ts demoCtxProbeState (.num 3)
        (.obj [("message", .str "m"), ("context", .obj [("a", .num 1)])])
        (.obj [("a", .num 2)])
        = Except.ok (.sent (.obj [("a", .num 2)]))) := by
  refine ⟨?_, ?_, ?_, ?_, ?_⟩
  · intro env fs appName level colors eomo cfs
    simp [_getLogValues, jsOr, jsTruthy]
  · intro env fsk appName level colors fs ccfs hget
    simp [_getLogValues, jsOr, jsTruthy, jsIndex, hget, jsTypeof]
  · intro env fsk appName level colors fs hget
    simp [_getLogValues, jsOr, jsTruthy, jsIndex, hget, jsTypeof]
  · intro env fsk appName level colors m
    simp [_getLogValues, jsOr, jsTruthy, jsTypeof]
  · intro env fsk ts
    rfl

/-- What `_getLevel` can return: a value that is itself a `logLevelNames`
property key, truthy, and a fixed point of `_getLevel`. -/
theorem level_out {x v : JSV} (h : _getLevel x = Except.ok v) :
    inLogLevelNames v = true ∧ jsTruthy v = true ∧ _getLevel v = Except.ok v := by
  unfold _getLevel at h
  split at h
  · rename_i h1
    injection h with h'
    subst h'
    refine ⟨h1, ?_, by rw [_getLevel, if_pos h1]⟩
    cases x with
    | undefV => exact absurd h1 (by decide)
    | null => exact absurd h1 (by decide)
    | bool b => cases b <;> exact absurd h1 (by decide)
    | num n =>
      by_contra hn
      have : n = 0 := by
        simpa [jsTruthy] using hn
      subst this
      exact absurd h1 (by decide)
    | str s =>
      by_contra hn
      have : s = "" := by
        simpa [jsTruthy] using hn
      subst this
      exact absurd h1 (by decide)
    | arr l => rfl
    | obj l => rfl
    | protoFn n => rfl
  · split at h
    · rename_i h1 h2
      injection h with h'
      subst h'
      rw [Bool.not_eq_true] at h1
      have h1' : (logLevelNameKeys.contains (jsKeyOf x) = false)
          ∧ (objectProtoKeys.contains (jsKeyOf x) = false) := by
        simpa [inLogLevelNames, jsInKeys] using h1
      have h2' : logLevelKeys.contains (jsKeyOf x) = true := by
        simp only [inLogLevels, jsInKeys, h1'.2, Bool.or_false] at h2
        exact h2
      have hmem : jsKeyOf x ∈ logLevelKeys := by simpa using h2'
      simp only [logLevelKeys, List.mem_cons, List.mem_singleton] at hmem
      rcases hmem with hk | hk | hk | hk | hk | hk
      · rw [hk]; exact ⟨rfl, rfl, rfl⟩
      · rw [hk]; exact ⟨rfl, rfl, rfl⟩
      · rw [hk]; exact ⟨rfl, rfl, rfl⟩
      · rw [hk]; exact ⟨rfl, rfl, rfl⟩
      · rw [hk]; exact ⟨rfl, rfl, rfl⟩
      · exact absurd hk (List.not_mem_nil _)
    · exact absurd h (by simp)

/-- The invariant every configuration stored by a successful `setConfig`
satisfies. -/
structure StateInv (s : LoggerState) : Prop where
  sendI : ∃ f, s.send = some f
  formatI : ∃ g, s.format = some g
  appNameI : ∃ a, s.appName = some a ∧ (a != "") = true
  minLevelI : ∃ v, s.minLevel = some v ∧ inLogLevelNames v = true ∧ jsTruthy v = true
    ∧ _getLevel v = Except.ok v
  colorsI : colorsOK (.js s.colors) = true

/-- A successful `setConfig` always stores a configuration satisfying
`StateInv`. -/
theorem setConfig_ok_inv {s0 : LoggerState} {c : ConfigArg} {s : LoggerState}
    (h : setConfig s0 c = Except.ok s) : StateInv s := by
  unfold setConfig at h
  split at h
  · exact absurd h (by simp)
  · generalize hA : resolvedAppName s0 c = av at h
    generalize hM : resolvedMinLevel s0 c = mv at h
    generalize hC : resolvedColors s0 c = colv at h
    split at h
    · exact absurd h (by simp)
    · rename_i sendFn hsend
      split at h
      · rename_i hcond
        simp only [configChecks, Bool.and_eq_true] at hcond
        obtain ⟨⟨⟨-, hlvlpre⟩, hname⟩, hcolors⟩ := hcond
        split at h
        · exact absurd h (by simp)
        · rename_i fmt hfmtok
          split at h
          · exact absurd h (by simp)
          · rename_i lvl hlvlok
            split at h
            · rename_i a cv
              injection h with h'
              subst h'
              refine ⟨⟨sendFn, rfl⟩, ⟨fmt, rfl⟩, ⟨a, rfl, ?_⟩, ?_, ?_⟩
              · simpa [appNameOK] using hname
              · cases mv with
                | js v0 =>
                  obtain ⟨p1, p2, p3⟩ := level_out (x := v0) hlvlok
                  exact ⟨lvl, rfl, p1, p2, p3⟩
                | fn g0 => exact absurd hlvlok (by simp [_getLevelF])
              · simpa [colorsOK] using hcolors
            · exact absurd h (by simp)
      · exact absurd h (by simp)

/-- C4: re-configuring any logger that holds a valid configuration with only
`\x7b appName: "New" \x7d` preserves the stored `send`, `format`,
`minLevel` and `colors` and replaces only `appName` (conjunct 1); a first
configuration carrying only `send` stores `appName = "My App"`,
`minLevel = 3` (the WARNING rank) and the built-in SLACK formatter
(conjunct 2). -/
theorem c4_defaults_merging_update :
    (∀ (s0 s : LoggerState) (c : ConfigArg),
      setConfig s0 c = Except.ok s →
      setConfig s (.cfg { appName := some (.js (.str "New")) })
        = Except.ok { s with appName := some "New" })
    ∧ (∀ f : JSFn,
      setConfig initialLoggerState (.cfg { send := some (.fn f) })
        = Except.ok { send := some f, format := some _slackFormatter,
                      appName := some "My App", minLevel := some (.num 3),
                      colors := .undefV }) := by
  constructor
  · intro s0 s c h
    obtain ⟨⟨sf, hs⟩, ⟨g, hg⟩, ⟨a, ha, hane⟩, ⟨v, hv, hvn, hvt, hvi⟩, hc⟩ :=
      setConfig_ok_inv h
    obtain ⟨s1, s2, s3, s4, s5⟩ := s
    simp only [LoggerState.mk.injEq] at hs hg ha hv ⊢
    dsimp only at hs hg ha hv hc ⊢
    subst hs; subst hg; subst ha; subst hv
    have e1 : resolvedSend ⟨some sf, some g, some a, some v, s5⟩
        (.cfg { appName := some (.js (.str "New")) }) = .fn sf := rfl
    have e2 : resolvedFormat ⟨some sf, some g, some a, some v, s5⟩
        (.cfg { appName := some (.js (.str "New")) }) = .fn g := rfl
    have e3 : resolvedAppName ⟨some sf, some g, some a, some v, s5⟩
        (.cfg { appName := some (.js (.str "New")) }) = .js (.str "New") := rfl
    have e4 : resolvedMinLevel ⟨some sf, some g, some a, some v, s5⟩
        (.cfg { appName := some (.js (.str "New")) }) = .js v := by
      simp [resolvedMinLevel, readField, normF, hvt]
    have e5 : resolvedColors ⟨some sf, some g, some a, some v, s5⟩
        (.cfg { appName := some (.js (.str "New")) }) = .js s5 := rfl
    unfold setConfig
    rw [e1, e2, e3, e4, e5]
    have echk : configChecks (.fn g) (.js v) (.js (.str "New")) (.js s5) = true := by
      simp [configChecks, fieldTypeof, appNameOK, hc]
      right
      exact hvn
    rw [if_neg (by simp [configNullish]), echk]
    simp only [asFn, if_true]
    have e6 : _getFormat (.fn g) = Except.ok g := rfl
    have e7 : _getLevelF (.js v) = Except.ok v := by
      simpa [_getLevelF] using hvi
    rw [e6, e7]
  · intro f
    rfl

/-- Witness for C3: the input object's embedded context is an object, and
with no explicit argument it becomes the event context. -/
theorem c3_witness :
    jsGet [("message", JSV.str "m"), ("context", JSV.obj [("a", JSV.num 1)])] "context"
      = JSV.obj [("a", JSV.num 1)]
    ∧ (_getLogValues demoEnv demoFreshStack (some "My App") (.num 3) .undefV
        (.obj [("message", .str "m"), ("context", .obj [("a", .num 1)])]) .undefV).context
      = .obj [("a", .num 1)] :=
  ⟨rfl, c3_context_precedence.2.1 demoEnv demoFreshStack (some "My App") (.num 3) .undefV
    _ _ rfl⟩

/-- Witness for C4: a concrete first configuration takes the defaults
(producing `demoState`), and a concrete appName-only re-configuration of
`demoState` preserves every other stored field. -/
theorem c4_witness :
    setConfig initialLoggerState (.cfg { send := some (.fn demoSend) })
      = Except.ok demoState
    ∧ setConfig demoState (.cfg { appName := some (.js (.str "New")) })
      = Except.ok { demoState with appName := some "New" } :=
  ⟨c4_defaults_merging_update.2 demoSend,
   c4_defaults_merging_update.1 initialLoggerState demoState
     (.cfg { send := some (.fn demoSend) }) (c4_defaults_merging_update.2 demoSend)⟩

/-- Counterexample for C6: the decimal string `"3"` is neither a valid rank
(ranks are numbers) nor a valid level name, yet `_getLevel` does not fail
with `UnknownLevel` — it returns the string unchanged (the `in` check
coerces it to the property key `"3"` of `logLevelNames`); likewise any
inherited `Object.prototype` property name such as `"toString"` is
accepted and returned unchanged. -/
theorem c6_counterexample :
    _getLevel (.str "3") = Except.ok (.str "3")
    ∧ _getLevel (.str "toString") = Except.ok (.str "toString") :=
  ⟨rfl, rfl⟩

/-- C6 as amended: `rankOf(r) = r` for every valid rank and `rankOf(n) = r`
for every canonical name mapped to `r`; but inputs whose property-key form
is the decimal string of a valid rank, or an inherited `Object.prototype`
property name, are also accepted (returned unchanged rather than as a
rank); `UnknownLevel` is raised exactly for the remaining inputs. -/
theorem c6_amended_rank_of :
    (∀ r : Int, 1 ≤ r → r ≤ 5 → _getLevel (.num r) = Except.ok (.num r))
    ∧ (_getLevel (.str "DEBUG") = Except.ok (.num 1)
       ∧ _getLevel (.str "INFO") = Except.ok (.num 2)
       ∧ _getLevel (.str "WARNING") = Except.ok (.num 3)
       ∧ _getLevel (.str "ERROR") = Except.ok (.num 4)
       ∧ _getLevel (.str "CRITICAL") = Except.ok (.num 5))
    ∧ (∀ v : JSV,
        jsKeyOf v ∉ logLevelNameKeys →
        jsKeyOf v ∉ logLevelKeys →
        jsKeyOf v ∉ objectProtoKeys →
        _getLevel v = Except.error ("Unknown level: " ++ jsDisplay v)) := by
  refine ⟨?_, ⟨rfl, rfl, rfl, rfl, rfl⟩, ?_⟩
  · intro r h1 h5
    interval_cases r <;> rfl
  · intro v h1 h2 h3
    simp [_getLevel, inLogLevelNames, inLogLevels, jsInKeys, h1, h2, h3]

/-- Witness for C6: a valid rank resolves to itself, and an input matching
no key fails with the `UnknownLevel` message. -/
theorem c6_witness :
    _getLevel (.num 3) = Except.ok (.num 3)
    ∧ _getLevel (.str "NOPE") = Except.error "Unknown level: NOPE" :=
  ⟨c6_amended_rank_of.1 3 (by norm_num) (by norm_num),
   c6_amended_rank_of.2.2 (.str "NOPE") (by decide) (by decide) (by decide)⟩

/-- An explicitly non-`undefined` field survives the destructuring-default
normalization. -/
theorem normF_keep {fv : FieldV} (h : fv ≠ .js .undefV) : normF (some fv) = some fv := by
  cases fv with
  | fn g => rfl
  | js v => cases v <;> first | rfl | exact absurd rfl h

/-- When the assertion's non-send conjuncts evaluate to false, `setConfig`
raises `InvalidConfig` (whatever the send check yields). -/
theorem setConfig_err_of_checks_false {s : LoggerState} {o : ConfigObj}
    (h : configChecks (resolvedFormat s (.cfg o)) (resolvedMinLevel s (.cfg o))
      (resolvedAppName s (.cfg o)) (resolvedColors s (.cfg o)) = false) :
    setConfig s (.cfg o) = Except.error invalidConfigMsg := by
  unfold setConfig
  rw [if_neg (by simp [configNullish])]
  cases hA : asFn (resolvedSend s (.cfg o)) with
  | none => rfl
  | some sf => rw [h]; rfl

/-- A `format` value the assertion accepted always resolves: `_getFormat`
cannot throw after a successful validation. -/
theorem getFormat_of_checks {fv : FieldV}
    (h : (fieldTypeof fv == "function" || inLogFormats fv || inLogFormatNames fv) = true) :
    ∃ g, _getFormat fv = Except.ok g := by
  by_cases hn : inLogFormatNames fv = true
  · exact ⟨if fieldKey fv == "1" then _slackFormatter else inheritedFn (fieldKey fv),
      by unfold _getFormat; rw [if_pos hn]⟩
  · by_cases hf : inLogFormats fv = true
    · exact ⟨_slackFormatter, by unfold _getFormat; rw [if_neg hn, if_pos hf]⟩
    · simp only [Bool.or_eq_true, hn, hf, or_false] at h
      cases fv with
      | fn g => exact ⟨g, by unfold _getFormat; rw [if_neg hn, if_neg hf]⟩
      | js v =>
        cases v <;> simp only [fieldTypeof, jsTypeof] at h <;>
          first
          | exact absurd h (by decide)
          | (rename_i n
             exact ⟨inheritedFn n, by unfold _getFormat; rw [if_neg hn, if_neg hf]⟩)

/-- A `minLevel` value the assertion accepted always resolves: `_getLevel`
cannot throw after a successful validation. -/
theorem getLevelF_of_checks {fv : FieldV}
    (h : (inLogLevelsF fv || inLogLevelNamesF fv) = true) :
    ∃ lvl, _getLevelF fv = Except.ok lvl := by
  cases fv with
  | fn g =>
    have hz : (inLogLevelsF (FieldV.fn g) || inLogLevelNamesF (FieldV.fn g)) = false := rfl
    rw [hz] at h
    exact absurd h (by simp)
  | js v =>
    by_cases hn : inLogLevelNames v = true
    · exact ⟨v, by simp [_getLevelF, _getLevel, hn]⟩
    · have hl : inLogLevels v = true := by
        rcases Bool.or_eq_true_iff.mp h with h' | h'
        · exact h'
        · exact absurd h' hn
      exact ⟨jsGet logLevelsObj (jsKeyOf v), by simp [_getLevelF, _getLevel, hn, hl]⟩

/-- A value passing the `appName` check is a string. -/
theorem appNameOK_shape {fv : FieldV} (h : appNameOK fv = true) :
    ∃ a, fv = .js (.str a) := by
  cases fv with
  | fn g => exact absurd h (by simp [appNameOK])
  | js v =>
    cases v <;> first
      | exact ⟨_, rfl⟩
      | exact absurd h (by simp [appNameOK])

/-- A value passing the `colors` check is a plain (function-free) value. -/
theorem colorsOK_shape {fv : FieldV} (h : colorsOK fv = true) :
    ∃ cv, fv = .js cv := by
  cases fv with
  | fn g => exact absurd h (by simp [colorsOK])
  | js v => exact ⟨v, rfl⟩

/-- Counterexample for C9: a non-object configuration argument (the number
5) does not raise on a fully configured logger — destructuring a number
reads every field as absent, all defaults carry the stored values over,
and `setConfig` succeeds as a no-op re-storing the identical
configuration. -/
theorem c9_counterexample :
    setConfig demoState (.js (.num 5)) = Except.ok demoState := rfl

/-- C9 as amended: `setConfig` raises `InvalidConfig` for a `null` or
`undefined` configuration; for a missing callable `send` with no prior
one; for an explicitly non-callable `send`; and for an explicitly given
unresolvable `format`, unresolvable `minLevel`, non-string-or-empty
`appName`, or non-object `colors` — and whenever it raises, the stored
configuration is untouched: validation precedes every field assignment,
and (final conjunct) once the assertion passes the remaining resolutions
cannot fail, so no partially-updated state is ever observable.  A
non-object, non-nullish configuration, however, is read as having no
fields and does not itself cause a failure (see the counterexample). -/
theorem c9_amended_atomic :
    (∀ s : LoggerState, setConfig s (.js .null) = Except.error invalidConfigMsg)
    ∧ (∀ s : LoggerState, setConfig s (.js .undefV) = Except.error invalidConfigMsg)
    ∧ (∀ (s : LoggerState) (o : ConfigObj), s.send = none → normF o.send = none →
        setConfig s (.cfg o) = Except.error invalidConfigMsg)
    ∧ (∀ (s : LoggerState) (o : ConfigObj) (v : JSV), o.send = some (.js v) →
        v ≠ .undefV → jsTypeof v ≠ "function" →
        setConfig s (.cfg o) = Except.error invalidConfigMsg)
    ∧ (∀ (s : LoggerState) (o : ConfigObj) (fv : FieldV), o.format = some fv →
        fv ≠ .js .undefV → fieldTypeof fv ≠ "function" →
        inLogFormats fv = false → inLogFormatNames fv = false →
        setConfig s (.cfg o) = Except.error invalidConfigMsg)
    ∧ (∀ (s : LoggerState) (o : ConfigObj) (fv : FieldV), o.minLevel = some fv →
        fv ≠ .js .undefV →
        inLogLevelsF fv = false → inLogLevelNamesF fv = false →
        setConfig s (.cfg o) = Except.error invalidConfigMsg)
    ∧ (∀ (s : LoggerState) (o : ConfigObj) (fv : FieldV), o.appName = some fv →
        fv ≠ .js .undefV → appNameOK fv = false →
        setConfig s (.cfg o) = Except.error invalidConfigMsg)
    ∧ (∀ (s : LoggerState) (o : ConfigObj) (fv : FieldV), o.colors = some fv →
        fv ≠ .js .undefV → colorsOK fv = false →
        setConfig s (.cfg o) = Except.error invalidConfigMsg)
    ∧ (∀ (s : LoggerState) (c : ConfigArg), configNullish c = false →
        (asFn (resolvedSend s c)).isSome = true →
        configChecks (resolvedFormat s c) (resolvedMinLevel s c)
          (resolvedAppName s c) (resolvedColors s c) = true →
        ∃ s2, setConfig s c = Except.ok s2) := by
  refine ⟨fun s => rfl, fun s => rfl, ?_, ?_, ?_, ?_, ?_, ?_, ?_⟩
  · intro s o hsend hnorm
    have hrs : resolvedSend s (.cfg o) = .js .undefV := by
      simp [resolvedSend, readField, hnorm, hsend]
    unfold setConfig
    rw [if_neg (by simp [configNullish]), hrs]
    rfl
  · intro s o v hfield hundef htype
    have hrs : resolvedSend s (.cfg o) = .js v := by
      have hne : (FieldV.js v) ≠ FieldV.js JSV.undefV := by
        intro hh
        injection hh with h2
        exact hundef h2
      simp [resolvedSend, readField, hfield, normF_keep hne]
    unfold setConfig
    rw [if_neg (by simp [configNullish]), hrs]
    cases v <;> first
      | rfl
      | exact absurd rfl htype
  · intro s o fv hfield hundef htype hf hn
    apply setConfig_err_of_checks_false
    have hrf : resolvedFormat s (.cfg o) = fv := by
      simp [resolvedFormat, readField, hfield, normF_keep hundef]
    rw [hrf]
    simp [configChecks, hf, hn]
    intro hcontra
    exact absurd (by simpa using hcontra) htype
  · intro s o fv hfield hundef hl hn
    apply setConfig_err_of_checks_false
    have hrf : resolvedMinLevel s (.cfg o) = fv := by
      simp [resolvedMinLevel, readField, hfield, normF_keep hundef]
    rw [hrf]
    simp [configChecks, hl, hn]
  · intro s o fv hfield hundef hok
    apply setConfig_err_of_checks_false
    have hrf : resolvedAppName s (.cfg o) = fv := by
      simp [resolvedAppName, readField, hfield, normF_keep hundef]
    rw [hrf]
    simp [configChecks, hok]
  · intro s o fv hfield hundef hok
    apply setConfig_err_of_checks_false
    have hrf : resolvedColors s (.cfg o) = fv := by
      simp [resolvedColors, readField, hfield, normF_keep hundef]
    rw [hrf]
    simp [configChecks, hok]
  · intro s c hnull hsend hchecks
    obtain ⟨sendFn, hsf⟩ := Option.isSome_iff_exists.mp hsend
    have hc' := hchecks
    simp only [configChecks, Bool.and_eq_true] at hc'
    obtain ⟨⟨⟨h1, h2⟩, h3⟩, h4⟩ := hc'
    obtain ⟨g, hg⟩ := getFormat_of_checks h1
    obtain ⟨lvl, hl⟩ := getLevelF_of_checks h2
    obtain ⟨a, ha⟩ := appNameOK_shape h3
    obtain ⟨cv, hcv⟩ := colorsOK_shape h4
    refine ⟨{ send := some sendFn, format := some g, appName := some a,
               minLevel := some lvl, colors := cv }, ?_⟩
    unfold setConfig
    rw [if_neg (by simp [hnull]), hsf, hchecks]
    simp only [if_true]
    rw [hg, hl, ha, hcv]

/-- Witness for C9: an empty first configuration (no callable `send`) and an
empty-string `appName` re-configuration both raise `InvalidConfig`. -/
theorem c9_witness :
    setConfig initialLoggerState (.cfg {}) = Except.error invalidConfigMsg
    ∧ setConfig demoState (.cfg { appName := some (.js (.str "")) })
      = Except.error invalidConfigMsg :=
  ⟨c9_amended_atomic.2.2.1 initialLoggerState {} rfl rfl,
   c9_amended_atomic.2.2.2.2.2.2.1 demoState { appName := some (.js (.str "")) }
     (.js (.str "")) rfl (by simp) rfl⟩

/-- Writing a registry key makes it readable. -/
theorem lookupReg_setReg (regs : Registry) (k : RKey) (L : LoggerState) :
    lookupReg (setReg regs k L) k = some L := by
  induction regs with
  | nil => simp [setReg, lookupReg]
  | cons p r ih =>
    obtain ⟨k0, L0⟩ := p
    by_cases hk : k0 = k
    · subst hk
      simp [setReg, lookupReg]
    · simp [setReg, lookupReg, hk, ih]

/-- Whenever `getLogger` hands back a logger, that logger is registered
under the resolved key in the resulting registry. -/
theorem getLogger_ok_lg {regs : Registry} {idc cfg : ConfigArg} {L : LoggerState}
    {regs2 : Registry}
    (h : getLogger regs idc cfg = Except.ok (.lg L, regs2)) :
    lookupReg regs2 (glKey idc) = some L := by
  unfold getLogger at h
  dsimp only at h
  generalize (if (argTypeof idc == "object") = true then idc else cfg) = lc at h
  split at h
  next L1 hl =>
    split at h
    · split at h
      · exact absurd h (by simp)
      · rename_i L2 heq2
        injection h with h'
        injection h' with h1 h2
        injection h1 with h1'
        subst h1'; subst h2
        exact lookupReg_setReg regs (glKey idc) L2
    · injection h with h'
      injection h' with h1 h2
      injection h1 with h1'
      subst h1'; subst h2
      exact hl
  next hl =>
    split at h
    · split at h
      · exact absurd h (by simp)
      · split at h <;> exact absurd h (by simp)
    · split at h
      · split at h
        · exact absurd h (by simp)
        · rename_i L2 heq2
          injection h with h'
          injection h' with h1 h2
          injection h1 with h1'
          subst h1'; subst h2
          exact lookupReg_setReg regs (glKey idc) L2
      · exact absurd h (by simp)

/-- A configuration-less `getLogger` on a registered string key returns the
registered logger and leaves the registry unchanged. -/
theorem getLogger_lookup_only {regs : Registry} {key : String} {L : LoggerState}
    (h : lookupReg regs (.str key) = some L) :
    getLogger regs (.js (.str key)) (.js .undefV) = Except.ok (.lg L, regs) := by
  unfold getLogger
  dsimp only
  simp only [glKey]
  rw [h]
  rfl

/-- Counterexample for C5: the key `"toString"` has never been configured,
yet `getLogger("toString")` does not fail with `NotConfigured` — the
`id in _loggers` check is true through the prototype chain, and the
inherited `Object.prototype.toString` member (not a logger) is returned
without raising. -/
theorem c5_counterexample :
    getLogger ([] : Registry) (.js (.str "toString")) (.js .undefV)
      = Except.ok (.inherited "toString", ([] : Registry)) := rfl

/-- C5 as amended: for every never-configured key that is not an inherited
`Object.prototype` property name — and for the never-configured default
logger — `getLogger` fails with `NotConfigured`; and after a `getLogger`
call at a key succeeds with a logger, a subsequent `getLogger` of that
key returns the same registered logger with the same observed
configuration, leaving the registry unchanged.  (Inherited property-name
keys instead return the inherited member without raising — see the
counterexample.) -/
theorem c5_amended_not_configured :
    (∀ (regs : Registry) (key : String),
      objectProtoKeys.contains key = false →
      lookupReg regs (.str key) = none →
      getLogger regs (.js (.str key)) (.js .undefV)
        = Except.error (notConfiguredMsg (.str key)))
    ∧ (∀ regs : Registry,
      lookupReg regs .dflt = none →
      getLogger regs (.js .undefV) (.js .undefV)
        = Except.error (notConfiguredMsg .dflt))
    ∧ (∀ (regs : Registry) (key : String) (config : ConfigArg) (L : LoggerState)
        (regs2 : Registry),
      getLogger regs (.js (.str key)) config = Except.ok (.lg L, regs2) →
      getLogger regs2 (.js (.str key)) (.js .undefV) = Except.ok (.lg L, regs2)) := by
  refine ⟨?_, ?_, ?_⟩
  · intro regs key hproto hlook
    unfold getLogger
    dsimp only
    simp only [glKey]
    rw [hlook]
    have hm : key ∉ objectProtoKeys := by simpa using hproto
    simp [protoRKey, hproto, hm, argTruthy, argTypeof, jsTypeof, jsTruthy]
  · intro regs hlook
    unfold getLogger
    dsimp only
    simp only [glKey]
    rw [hlook]
    simp [protoRKey, argTruthy, argTypeof, jsTypeof, jsTruthy]
  · intro regs key config L regs2 h
    exact getLogger_lookup_only (getLogger_ok_lg h)

/-- Witness for C5: a fresh key fails with the `NotConfigured` message;
after configuring it the same logger and configuration are returned. -/
theorem c5_witness :
    getLogger ([] : Registry) (.js (.str "x")) (.js .undefV)
      = Except.error "Logger id x does not yet exist, please supply config."
    ∧ getLogger ([] : Registry) (.js (.str "x")) (.cfg { send := some (.fn demoSend) })
      = Except.ok (.lg demoState, [(RKey.str "x", demoState)])
    ∧ getLogger [(RKey.str "x", demoState)] (.js (.str "x")) (.js .undefV)
      = Except.ok (.lg demoState, [(RKey.str "x", demoState)]) :=
  ⟨c5_amended_not_configured.1 ([] : Registry) "x" (by decide) rfl,
   rfl,
   c5_amended_not_configured.2.2 ([] : Registry) "x"
     (.cfg { send := some (.fn demoSend) }) demoState [(RKey.str "x", demoState)] rfl⟩

/-- C10: registry keys are coalesced by string value: a logger registered
under the number `n` is found under the decimal string `String(n)`, the
same logger with the same registry — a numeric key and its decimal-string
form never name two distinct loggers. -/
theorem c10_numeric_string_key_coalesce :
    ∀ (regs : Registry) (n : Int) (config : ConfigArg) (L : LoggerState)
      (regs2 : Registry),
      getLogger regs (.js (.num n)) config = Except.ok (.lg L, regs2) →
      getLogger regs2 (.js (.str (toString n))) (.js .undefV)
        = Except.ok (.lg L, regs2) := by
  intro regs n config L regs2 h
  exact getLogger_lookup_only (getLogger_ok_lg h)

/-- Witness for C10: a logger created under the number 7 is returned by a
lookup of the string `"7"`. -/
theorem c10_witness :
    getLogger ([] : Registry) (.js (.num 7)) (.cfg { send := some (.fn demoSend) })
      = Except.ok (.lg demoState, [(RKey.str "7", demoState)])
    ∧ getLogger [(RKey.str "7", demoState)] (.js (.str "7")) (.js .undefV)
      = Except.ok (.lg demoState, [(RKey.str "7", demoState)]) :=
  ⟨rfl,
   c10_numeric_string_key_coalesce ([] : Registry) 7
     (.cfg { send := some (.fn demoSend) }) demoState [(RKey.str "7", demoState)] rfl⟩

/-- A custom formatter that always raises. -/
def demoBoomFormatter : JSFn := fun _ _ => Except.error "boom"

/-- A configured logger whose formatter raises. -/
def demoBoomState : LoggerState :=
  { send := some demoSend, format := some demoBoomFormatter,
    appName := some "My App", minLevel := some (.num 3), colors := .undefV }

/-- C8: for every valid, non-filtered log call whose configured formatter
raises on the built log event, `log` fails with the `InvalidFormatter`
error — the result is an `Except.error`, not a `sent` outcome, so the
`send` callback is never invoked. -/
theorem c8_formatter_failure :
    ∀ (env : SysEnv) (freshStack : String) (ts : Nat) (s : LoggerState)
      (level eomo context lv : JSV) (f : JSFn) (emsg : String),
      validLogCall level eomo context = true →
      _getLevel level = Except.ok lv →
      jsLt lv (s.minLevel.getD .undefV) = false →
      s.format = some f →
      f ts (_getLogValues env freshStack s.appName lv s.colors eomo context)
        = Except.error emsg →
      Logger.log env freshStack ts s level eomo context
        = Except.error formatFailMsg := by
  intro env fs ts s level eomo context lv f emsg hvalid hget hlt hfmt herr
  simp only [Logger.log, hvalid, if_true, hget, hlt, hfmt, herr]
  simp

/-- Witness for C8: a concrete raising formatter surfaces the
`InvalidFormatter` message. -/
theorem c8_witness :
    validLogCall (.num 3) (.str "m") .undefV = true
    ∧ Logger.log demoEnv demoFreshStack 0 demoBoomState (.num 3) (.str "m") .undefV
      = Except.error formatFailMsg :=
  ⟨rfl,
   c8_formatter_failure demoEnv demoFreshStack 0 demoBoomState (.num 3) (.str "m")
     .undefV (.num 3) demoBoomFormatter "boom" rfl rfl rfl rfl rfl⟩
